import Mathlib

/-!
Verification development for the smart-store analytics pipeline.

The development shallowly embeds the repository's data model and the
operations the specification talks about:

* the `DataScrubber` cleaning component (its table model and per-column
  cleaning operations),
* the warehouse load of `etl_to_dw.py` (delete-then-insert with
  de-duplication by primary key),
* the cube-naming logic of `olap/cubing.py`, and
* the fault-tolerant CSV reading of `data_prep.py`.

Text values are modelled as lists of Unicode code points; tables are a
list of column names together with row-major lists of values; fallible
operations return `Except`.
-/

namespace SmartStore

/-- A cell value of a table: the distinguished missing marker `na`, a text
value (a list of Unicode code points), an integer, a rational standing in
for a floating-point number, or a canonical datetime stamp. -/
inductive Value where
  | na
  | str (s : List Nat)
  | int (n : Int)
  | real (q : Rat)
  | dtime (n : Nat)
  deriving DecidableEq, Repr

/-- The scrubber's table: an ordered list of column names together with
row-major data (each row lists one value per column, positionally). -/
structure Table where
  colNames : List String
  rows : List (List Value)
  deriving DecidableEq, Repr

/-- The scrubber's only structural error: a referenced column is absent. -/
inductive ScrubError where
  | columnNotFound (name : String)
  deriving DecidableEq, Repr

/-- Keep only the elements of a list that are not equal to an element that
appeared earlier; `seen` accumulates the values already encountered. -/
def keepFirst [DecidableEq α] (seen : List α) : List α → List α
  | [] => []
  | r :: rest =>
    if r ∈ seen then keepFirst seen rest
    else r :: keepFirst (r :: seen) rest

/-- Modelled from the spec: the missing `DataScrubber.remove_duplicate_records`
(`src/utils/data_scrubber.py` is not in the repository snapshot; only its
tests and callers are). A row is a duplicate if all column values equal a
previously seen row, comparing positionally first-to-last; the first
occurrence is kept. -/
def remove_duplicate_records (t : Table) : Table :=
  { t with rows := keepFirst [] t.rows }

/-- Python-style whitespace test on a code point (space, tab, newline,
carriage return, vertical tab, form feed). -/
def isSpaceCode (c : Nat) : Bool :=
  decide (c = 32 ∨ c = 9 ∨ c = 10 ∨ c = 13 ∨ c = 11 ∨ c = 12)

/-- Strip leading and trailing whitespace code points (Python `str.strip`). -/
def stripCodes (s : List Nat) : List Nat :=
  ((s.dropWhile isSpaceCode).reverse.dropWhile isSpaceCode).reverse

/-- Lower-case one code point (ASCII `A`-`Z` maps to `a`-`z`). -/
def lowerCode (c : Nat) : Nat :=
  if 65 ≤ c ∧ c ≤ 90 then c + 32 else c

/-- Python `str.lower` on code points. -/
def lowerCodes (s : List Nat) : List Nat := s.map lowerCode

/-- Code points of the decimal rendering of a natural number. -/
def natCodes (n : Nat) : List Nat := (Nat.toDigits 10 n).map Char.toNat

/-- Code points of the decimal rendering of an integer. -/
def intCodes (n : Int) : List Nat :=
  if n < 0 then 45 :: natCodes n.natAbs else natCodes n.natAbs

/-- Code points of a rendering of a rational. -/
def ratCodes (q : Rat) : List Nat :=
  if q.den = 1 then intCodes q.num else intCodes q.num ++ [47] ++ natCodes q.den

/-- Text rendering of a value (Python `str(...)` on a cell). -/
def valueText : Value → List Nat
  | .na => []
  | .str s => s
  | .int n => intCodes n
  | .real q => ratCodes q
  | .dtime n => natCodes n

/-- Modelled from the spec: the per-value normalization performed by the
missing `DataScrubber.format_column_strings_to_lower_and_trim`
(`src/utils/data_scrubber.py` is not in the repository snapshot): a
non-missing value is converted to text, stripped of leading/trailing
whitespace and case-folded to lower case; the missing marker is untouched. -/
def normalizeValue : Value → Value
  | .na => .na
  | v => .str (lowerCodes (stripCodes (valueText v)))

/-- Apply `f` to the element at position `i` of a list, leaving every other
element unchanged. -/
def mapAt (i : Nat) (f : α → α) : List α → List α
  | [] => []
  | x :: xs =>
    match i with
    | 0 => f x :: xs
    | j + 1 => x :: mapAt j f xs

/-- Index of a column name in a table, if present. -/
def Table.colIdx (t : Table) (c : String) : Option Nat :=
  t.colNames.findIdx? (· == c)

/-- Modelled from the spec: the missing
`DataScrubber.format_column_strings_to_lower_and_trim`: every non-missing
value of the named column becomes lower-cased, trimmed text; the operation
fails with `ColumnNotFound` when the column is absent. -/
def format_column_strings_to_lower_and_trim (t : Table) (c : String) :
    Except ScrubError Table :=
  match t.colIdx c with
  | none => .error (.columnNotFound c)
  | some i => .ok { t with rows := t.rows.map (mapAt i normalizeValue) }

/-- True when a row contains at least one missing entry. -/
def rowHasNa (r : List Value) : Bool := r.any (fun v => v == .na)

/-- Modelled from the spec: the missing `DataScrubber.handle_missing_data`:
with `drop = true` every row containing a missing entry in any column is
removed (drop takes priority over a simultaneously supplied fill value);
otherwise a supplied `fill_value` replaces every missing entry in every
column; with neither, the table is returned unchanged. -/
def handle_missing_data (t : Table) (fill_value : Option Value) (drop : Bool) :
    Table :=
  if drop then { t with rows := t.rows.filter (fun r => !rowHasNa r) }
  else
    match fill_value with
    | some v =>
        { t with
            rows := t.rows.map (List.map (fun x => if x = .na then v else x)) }
    | none => t

/-- Parse a nonempty all-digit code-point list as a decimal number. -/
def decCodes : List Nat → Option Nat
  | [] => none
  | l =>
    l.foldl
      (fun acc c =>
        match acc with
        | none => none
        | some n => if 48 ≤ c ∧ c ≤ 57 then some (n * 10 + (c - 48)) else none)
      (some 0)

/-- Split a code-point list on a separator code point (Python `str.split`). -/
def splitCodes (sep : Nat) : List Nat → List (List Nat)
  | [] => [[]]
  | c :: rest =>
    let r := splitCodes sep rest
    if c = sep then [] :: r
    else
      match r with
      | [] => [[c]]
      | h :: rs => (c :: h) :: rs

/-- Modelled from the spec: parsing of a date-like value into canonical
chronological form, for the missing
`DataScrubber.parse_dates_to_add_standard_datetime`. A text value of shape
`YYYY-MM-DD` with a valid month and day parses to a stamp; an
already-parsed datetime is kept; every other value is unparseable. -/
def parseDateValue : Value → Option Nat
  | .dtime n => some n
  | .str s =>
    match splitCodes 45 s with
    | [y, m, d] =>
      match decCodes y, decCodes m, decCodes d with
      | some yn, some mn, some dn =>
        if 1 ≤ mn ∧ mn ≤ 12 ∧ 1 ≤ dn ∧ dn ≤ 31 then
          some (yn * 10000 + mn * 100 + dn)
        else none
      | _, _, _ => none
    | _ => none
  | _ => none

/-- Modelled from the spec: the missing
`DataScrubber.parse_dates_to_add_standard_datetime`: a new column named
`StandardDateTime` is appended holding the parsed value of the named
column for each row (the missing marker where parsing fails); the original
columns are unchanged; the operation fails with `ColumnNotFound` when the
named column is absent. -/
def parse_dates_to_add_standard_datetime (t : Table) (c : String) :
    Except ScrubError Table :=
  match t.colIdx c with
  | none => .error (.columnNotFound c)
  | some i =>
    .ok { colNames := t.colNames ++ ["StandardDateTime"],
          rows := t.rows.map (fun r =>
            r ++ [match parseDateValue (r.getD i .na) with
                  | some n => .dtime n
                  | none => .na]) }

/-- Modelled from the spec: the missing `DataScrubber.rename_columns`:
every old name of the mapping must exist (`ColumnNotFound` otherwise);
mapped columns are renamed in place, unmapped columns and all values are
untouched, and column order is preserved. -/
def rename_columns (t : Table) (mapping : List (String × String)) :
    Except ScrubError Table :=
  match mapping.find? (fun p => !(t.colNames.contains p.1)) with
  | some p => .error (.columnNotFound p.1)
  | none =>
    .ok { t with
            colNames := t.colNames.map (fun n =>
              match mapping.lookup n with
              | some n2 => n2
              | none => n) }

/-- The closed set of target representational types of
`convert_column_to_new_data_type`: text, 64-bit nullable integer,
floating-point. -/
inductive DType where
  | text
  | int64
  | float64
  deriving DecidableEq, Repr

/-- Parse an optionally signed run of digits as an integer. -/
def parseIntCodes (s : List Nat) : Option Int :=
  match s with
  | 45 :: rest => (decCodes rest).map (fun n => -(n : Int))
  | _ => (decCodes s).map (fun n => (n : Int))

/-- Parse an unsigned decimal, optionally with a fractional part. -/
def parseFracCodes (s : List Nat) : Option Rat :=
  match splitCodes 46 s with
  | [w] => (decCodes w).map (fun n => (n : Rat))
  | [w, f] =>
    match decCodes w, decCodes f with
    | some wn, some fn =>
      some ((wn : Rat) + (fn : Rat) / ((10 : Rat) ^ f.length))
    | _, _ => none
  | _ => none

/-- Parse an optionally signed decimal number. -/
def parseFloatCodes (s : List Nat) : Option Rat :=
  match s with
  | 45 :: rest => (parseFracCodes rest).map (fun q => -q)
  | _ => parseFracCodes s

/-- Modelled from the spec: the per-value coercion of the missing
`DataScrubber.convert_column_to_new_data_type`: a non-missing value is
coerced to the target representational type; a value that cannot be coerced
becomes the missing marker instead of raising; the missing marker is
preserved (nullable target representations). -/
def coerceValue (target : DType) : Value → Value
  | .na => .na
  | v =>
    match target with
    | .text => .str (valueText v)
    | .int64 =>
      match v with
      | .int n => .int n
      | .real q => if q.den = 1 then .int q.num else .na
      | .str s =>
        match parseIntCodes s with
        | some n => .int n
        | none => .na
      | _ => .na
    | .float64 =>
      match v with
      | .int n => .real (n : Rat)
      | .real q => .real q
      | .str s =>
        match parseFloatCodes s with
        | some q => .real q
        | none => .na
      | _ => .na

/-- Modelled from the spec: the missing
`DataScrubber.convert_column_to_new_data_type`: every value of the named
column is coerced to the target type via `coerceValue`; the operation fails
with `ColumnNotFound` when the column is absent, and never fails on data
content. -/
def convert_column_to_new_data_type (t : Table) (c : String) (target : DType) :
    Except ScrubError Table :=
  match t.colIdx c with
  | none => .error (.columnNotFound c)
  | some i => .ok { t with rows := t.rows.map (mapAt i (coerceValue target)) }

deriving instance DecidableEq for Except

/-- The scrubber's owned table after attempting an operation: the returned
table on success, the unchanged previous table when the operation raises. -/
def scrubberAfter (op : Table → Except ScrubError Table) (t : Table) : Table :=
  match op t with
  | .ok r => r
  | .error _ => t

/-- Keep only the elements whose key `f` equals no earlier element's key;
`seen` accumulates the keys already encountered. -/
def keepFirstBy [DecidableEq β] (f : α → β) (seen : List β) : List α → List α
  | [] => []
  | r :: rest =>
    if f r ∈ seen then keepFirstBy f seen rest
    else r :: keepFirstBy f (f r :: seen) rest

/-- An error raised by the warehouse-load insert helpers of `etl_to_dw.py`:
the pandas `KeyError` of `drop_duplicates` on an absent subset column, or
the explicit `ValueError` listing the missing required source columns. -/
inductive EtlError where
  | keyError (cols : List String)
  | valueError (missing : List String)
  deriving DecidableEq, Repr

/-- The column names carried by a warehouse-load error. -/
def errNames : EtlError → List String
  | .keyError cols => cols
  | .valueError missing => missing

/-- pandas `df.drop_duplicates(subset=[key])`: keep the first row per value
of the `key` column; raise `KeyError` naming the subset column when it is
absent from the frame. -/
def drop_duplicates_subset (df : Table) (key : String) :
    Except EtlError Table :=
  match df.colIdx key with
  | some i =>
    .ok { df with
            rows := keepFirstBy (fun r => r.getD i Value.na) [] df.rows }
  | none => .error (.keyError [key])

/-- Project each row of a DataFrame to the given source columns, in order
(`df[list(column_mapping.values())]` followed by the rename). -/
def projectRows (df : Table) (srcCols : List String) : List (List Value) :=
  df.rows.map (fun r => srcCols.map (fun c =>
    match df.colIdx c with
    | some i => r.getD i Value.na
    | none => Value.na))

/-- The column mapping of `insert_customers` in `etl_to_dw.py`
(warehouse name, prepared CSV name), in source order. -/
def customerColumnMapping : List (String × String) :=
  [("customer_id", "CustomerID"), ("name", "Name"), ("region", "Region"),
   ("join_date", "JoinDate"), ("loyalty_points", "LoyaltyPoints"),
   ("preferred_contact_method", "PreferredContactMethod")]

/-- The column mapping of `insert_products` in `etl_to_dw.py`. -/
def productColumnMapping : List (String × String) :=
  [("product_id", "productid"), ("product_name", "productname"),
   ("category", "category"), ("unit_price", "unitprice"),
   ("stock_quantity", "stockquantity"), ("supplier_name", "suppliername")]

/-- The column mapping of `insert_sales` in `etl_to_dw.py`. -/
def saleColumnMapping : List (String × String) :=
  [("sale_id", "TransactionID"), ("customer_id", "CustomerID"),
   ("product_id", "ProductID"), ("store_id", "StoreID"),
   ("campaign_id", "CampaignID"), ("sale_date", "SaleDate"),
   ("sale_amount", "SaleAmount"), ("discount_percent", "DiscountPercent"),
   ("payment_type", "PaymentType")]

/-- The shared body of `insert_customers` / `insert_products` /
`insert_sales`: de-duplicate by the primary-key source column
(`drop_duplicates(subset=[key])`, which happens before any column check),
then collect every required source column absent from the frame and raise
`ValueError` naming them all when any is missing; otherwise produce the
projected, renamed rows handed to `executemany`. -/
def insertRowsFor (mapping : List (String × String)) (key : String)
    (df : Table) : Except EtlError (List (List Value)) :=
  match drop_duplicates_subset df key with
  | .error e => .error e
  | .ok df2 =>
    let missing := (mapping.map Prod.snd).filter
      (fun src => !(df2.colNames.contains src))
    if missing.isEmpty then .ok (projectRows df2 (mapping.map Prod.snd))
    else .error (.valueError missing)

/-- `insert_customers` from `etl_to_dw.py`, as the rows it inserts. -/
def insert_customers (df : Table) : Except EtlError (List (List Value)) :=
  insertRowsFor customerColumnMapping "CustomerID" df

/-- `insert_products` from `etl_to_dw.py`, as the rows it inserts. -/
def insert_products (df : Table) : Except EtlError (List (List Value)) :=
  insertRowsFor productColumnMapping "productid" df

/-- `insert_sales` from `etl_to_dw.py`, as the rows it inserts. -/
def insert_sales (df : Table) : Except EtlError (List (List Value)) :=
  insertRowsFor saleColumnMapping "TransactionID" df

/-- The warehouse state: the rows of the customer and product dimension
tables and of the sale fact table. -/
structure DwState where
  customer : List (List Value)
  product : List (List Value)
  sale : List (List Value)
  deriving DecidableEq, Repr

/-- `delete_existing_records` from `etl_to_dw.py`: delete all rows, fact
table first (to respect the foreign keys), then the dimensions. -/
def delete_existing_records (s : DwState) : DwState :=
  let s1 := { s with sale := [] }
  let s2 := { s1 with customer := [] }
  { s2 with product := [] }

/-- The three prepared CSV files read by `load_data_to_db`. -/
structure PreparedFiles where
  customers : Table
  products : Table
  sales : Table
  deriving DecidableEq, Repr

/-- The transactional body of `load_data_to_db`: create the schema (no
effect on row contents), clear all existing records, then insert the
customers, products and sales datasets; any insert error aborts. -/
def loadTransaction (files : PreparedFiles) (s : DwState) :
    Except EtlError DwState :=
  let s1 := delete_existing_records s
  match insert_customers files.customers with
  | .error e => .error e
  | .ok cs =>
    match insert_products files.products with
    | .error e => .error e
    | .ok ps =>
      match insert_sales files.sales with
      | .error e => .error e
      | .ok ss =>
        .ok { customer := s1.customer ++ cs,
              product := s1.product ++ ps,
              sale := s1.sale ++ ss }

/-- `load_data_to_db` from `etl_to_dw.py`: run the transaction and commit on
success; on an error the connection is closed without committing, so the
warehouse keeps its previous state. -/
def load_data_to_db (files : PreparedFiles) (s : DwState) : DwState :=
  match loadTransaction files s with
  | .ok s2 => s2
  | .error _ => s

/-- An entry of the cubing metrics dict: a single aggregate-function name or
a list of them (`{"sale_amount": ["sum", "mean"], "sale_id": "count"}`). -/
inductive AggSpec where
  | one (f : List Nat)
  | many (fs : List (List Nat))
  deriving DecidableEq, Repr

/-- A cubing DataFrame: column names as code-point text (`cubing.py`
performs textual surgery on them) with row-major data. -/
structure CubeFrame where
  columns : List (List Nat)
  rows : List (List Value)
  deriving DecidableEq, Repr

/-- The error raised by `create_olap_cube` when a dimension or metric column
is absent from the frame (pandas `KeyError`). -/
inductive CubeError where
  | keyError (cols : List (List Nat))
  deriving DecidableEq, Repr

/-- Python `s.replace("__", "_")`: collapse non-overlapping double
underscores left to right (code point 95 is the underscore). -/
def replaceDoubleUnderscore : List Nat → List Nat
  | [] => []
  | [c] => [c]
  | c :: b :: rest =>
    if c = 95 ∧ b = 95 then 95 :: replaceDoubleUnderscore rest
    else c :: replaceDoubleUnderscore (b :: rest)

/-- Python `s.rstrip("_")`. -/
def rstripUnderscore (s : List Nat) : List Nat :=
  (s.reverse.dropWhile (fun c => c == 95)).reverse

/-- The cleanup `generate_column_names` applies to every produced name:
`col.replace("__", "_").rstrip("_")`. -/
def cleanColumnName (s : List Nat) : List Nat :=
  rstripUnderscore (replaceDoubleUnderscore s)

/-- True when the name holds two adjacent underscores. -/
def hasDoubleUnderscore : List Nat → Bool
  | [] => false
  | [_] => false
  | c :: b :: rest => (decide (c = 95) && decide (b = 95))
      || hasDoubleUnderscore (b :: rest)

/-- `generate_column_names` from `olap/cubing.py`: the dimension names
followed by `<column>_<func>` for every (column, aggregate-function) pair
of the metrics dict in order, every resulting name then cleaned of double
and trailing underscores. -/
def generate_column_names (dimensions : List (List Nat))
    (metrics : List (List Nat × AggSpec)) : List (List Nat) :=
  (dimensions ++ metrics.flatMap (fun p =>
    match p.2 with
    | .one f => [p.1 ++ [95] ++ f]
    | .many fs => fs.map (fun f => p.1 ++ [95] ++ f))).map cleanColumnName

/-- Index of a column name in a cubing frame. -/
def CubeFrame.colIdx (df : CubeFrame) (c : List Nat) : Option Nat :=
  df.columns.findIdx? (· == c)

/-- Value of a row at a named column of a cubing frame. -/
def cubeCell (df : CubeFrame) (c : List Nat) (r : List Value) : Value :=
  match df.colIdx c with
  | some i => r.getD i Value.na
  | none => Value.na

/-- Group key of a row: its values at the dimension columns, in order. -/
def dimKey (df : CubeFrame) (dims : List (List Nat)) (r : List Value) :
    List Value :=
  dims.map (fun c => cubeCell df c r)

/-- Numeric addition of cell values (integer or floating-point; anything
else yields the missing marker). -/
def addValues : Value → Value → Value
  | .int a, .int b => .int (a + b)
  | .int a, .real b => .real ((a : Rat) + b)
  | .real a, .int b => .real (a + (b : Rat))
  | .real a, .real b => .real (a + b)
  | _, _ => .na

/-- Interpretation of a pandas aggregate function by name over the values of
one group: `sum`, `count` and `mean` as used by the cubing pipeline. -/
def applyAgg (f : List Nat) (vs : List Value) : Value :=
  if f = [115, 117, 109] then vs.foldl addValues (.int 0)
  else if f = [99, 111, 117, 110, 116] then .int vs.length
  else if f = [109, 101, 97, 110] then
    match vs.foldl addValues (.int 0) with
    | .int s2 =>
      if vs.length = 0 then .na else .real ((s2 : Rat) / (vs.length : Rat))
    | .real s2 =>
      if vs.length = 0 then .na else .real (s2 / (vs.length : Rat))
    | _ => .na
  else .na

/-- `df.groupby(dimensions, dropna=True)`: the distinct group keys in
first-occurrence order, dropping keys that contain a missing value. -/
def groupKeys (df : CubeFrame) (dims : List (List Nat)) : List (List Value) :=
  keepFirstBy id []
    ((df.rows.map (dimKey df dims)).filter
      (fun k => !k.any (fun v => v == Value.na)))

/-- `create_olap_cube` from `olap/cubing.py`: an empty input frame produces
an empty frame; a dimension or metric column absent from the frame raises
`KeyError`; otherwise the grouped aggregation is computed and the cube's
columns are overwritten with `generate_column_names dimensions metrics`. -/
def create_olap_cube (df : CubeFrame) (dimensions : List (List Nat))
    (metrics : List (List Nat × AggSpec)) : Except CubeError CubeFrame :=
  if df.rows.isEmpty || df.columns.isEmpty then .ok ⟨[], []⟩
  else if (dimensions ++ metrics.map Prod.fst).all
      (fun c => df.columns.contains c) then
    .ok { columns := generate_column_names dimensions metrics,
          rows := (groupKeys df dimensions).map (fun key =>
            key ++ metrics.flatMap (fun p =>
              let vs := (df.rows.filter
                (fun r => dimKey df dimensions r == key)).map (cubeCell df p.1)
              match p.2 with
              | .one f => [applyAgg f vs]
              | .many fs => fs.map (fun f => applyAgg f vs))) }
  else
    .error (.keyError ((dimensions ++ metrics.map Prod.fst).filter
      (fun c => !(df.columns.contains c))))

/-- The outcome of `pd.read_csv` as observed by `read_data`: a successful
DataFrame, a `FileNotFoundError`, or any other exception. -/
inductive ReadOutcome where
  | success (df : Table)
  | fileNotFound
  | otherError
  deriving DecidableEq, Repr

/-- `read_data` from `data_prep.py`: returns the DataFrame on success and an
empty DataFrame on `FileNotFoundError` or on any other exception, never
propagating the exception to its caller. -/
def read_data (outcome : ReadOutcome) : Table :=
  match outcome with
  | .success df => df
  | .fileNotFound => { colNames := [], rows := [] }
  | .otherError => { colNames := [], rows := [] }

/-- pandas `df.empty`: true when the frame has no rows or no columns. -/
def pdEmpty (df : Table) : Bool := df.rows.isEmpty || df.colNames.isEmpty

/-- One iteration of the loop in `data_prep.main`: read the raw file; when
the result is non-empty, clean it and save it under the prepared name; a
failed or empty read produces no save. -/
def processEntry (fs : String → ReadOutcome)
    (entry : String × String × (Table → Table)) : List (String × Table) :=
  let df := read_data (fs entry.1)
  if pdEmpty df then [] else [(entry.2.1, entry.2.2 df)]

/-- The loop of `data_prep.main` over its `files_to_process` list: every
entry is processed independently; the saves produced are concatenated. -/
def data_prep_main (fs : String → ReadOutcome)
    (entries : List (String × String × (Table → Table))) :
    List (String × Table) :=
  entries.flatMap (processEntry fs)

theorem keepFirst_eq_filter_range [DecidableEq α] (d : α) (seen : List α)
    (l : List α) :
    keepFirst seen l =
      ((List.range l.length).filter
          (fun i => l.getD i d ∉ seen ∧ l.getD i d ∉ l.take i)).map
        (fun i => l.getD i d) := by
  induction l generalizing seen with
  | nil => simp [keepFirst]
  | cons a rest ih =>
    rw [List.length_cons, List.range_succ_eq_map, List.filter_cons,
      List.filter_map]
    have hcomp :
        ∀ s' : List α,
          (List.map ((fun i => (a :: rest).getD i d) ∘ Nat.succ)
            (List.filter
              ((fun i =>
                decide ((a :: rest).getD i d ∉ s' ∧
                  (a :: rest).getD i d ∉ (a :: rest).take i)) ∘ Nat.succ)
              (List.range rest.length))) =
          (List.map (fun i => rest.getD i d)
            (List.filter
              (fun i =>
                decide (rest.getD i d ∉ s' ∧
                  rest.getD i d ∉ a :: rest.take i))
              (List.range rest.length))) := by
      intro s'
      have hf :
          ((fun i =>
              decide ((a :: rest).getD i d ∉ s' ∧
                (a :: rest).getD i d ∉ (a :: rest).take i)) ∘ Nat.succ) =
            (fun i =>
              decide (rest.getD i d ∉ s' ∧ rest.getD i d ∉ a :: rest.take i)) := by
        funext i
        simp [Function.comp, List.take_succ_cons]
      rw [hf]
      apply List.map_congr_left
      intro i _
      simp [Function.comp]
    by_cases h : a ∈ seen
    · rw [keepFirst, if_pos h, ih seen]
      have hhead :
          (decide ((a :: rest).getD 0 d ∉ seen ∧
            (a :: rest).getD 0 d ∉ (a :: rest).take 0)) = false := by
        simp [h]
      rw [hhead]
      simp only [Bool.false_eq_true, if_false]
      rw [List.map_map, hcomp seen]
      congr 1
      apply List.filter_congr
      intro i _
      simp only [decide_eq_decide]
      constructor
      · rintro ⟨h1, h2⟩
        refine ⟨h1, fun hc => ?_⟩
        rcases List.mem_cons.mp hc with hc | hc
        · exact h1 (hc ▸ h)
        · exact h2 hc
      · rintro ⟨h1, h2⟩
        exact ⟨h1, fun hc => h2 (List.mem_cons_of_mem _ hc)⟩
    · rw [keepFirst, if_neg h, ih (a :: seen)]
      have hhead :
          (decide ((a :: rest).getD 0 d ∉ seen ∧
            (a :: rest).getD 0 d ∉ (a :: rest).take 0)) = true := by
        simp [h]
      rw [hhead]
      simp only [if_true, List.map_cons]
      rw [List.map_map, hcomp seen]
      have hgd : (a :: rest).getD 0 d = a := rfl
      rw [hgd]
      congr 1
      congr 1
      apply List.filter_congr
      intro i _
      simp only [decide_eq_decide]
      constructor
      · rintro ⟨h1, h2⟩
        refine ⟨fun hc => h1 (List.mem_cons_of_mem _ hc), fun hc => ?_⟩
        rcases List.mem_cons.mp hc with hc | hc
        · exact h1 (hc ▸ List.mem_cons_self _ _)
        · exact h2 hc
      · rintro ⟨h1, h2⟩
        refine ⟨fun hc => ?_, fun hc => h2 (List.mem_cons_of_mem _ hc)⟩
        rcases List.mem_cons.mp hc with hc | hc
        · exact h2 (hc ▸ List.mem_cons_self _ _)
        · exact h1 hc

theorem keepFirst_not_mem_seen [DecidableEq α] (seen : List α) (l : List α) :
    ∀ x ∈ keepFirst seen l, x ∉ seen := by
  induction l generalizing seen with
  | nil => intro x hx; simp [keepFirst] at hx
  | cons a rest ih =>
    intro x hx
    by_cases h : a ∈ seen
    · rw [keepFirst, if_pos h] at hx
      exact ih seen x hx
    · rw [keepFirst, if_neg h] at hx
      rcases List.mem_cons.mp hx with rfl | hx
      · exact h
      · have := ih (a :: seen) x hx
        exact fun hc => this (List.mem_cons_of_mem _ hc)

theorem keepFirst_nodup [DecidableEq α] (seen : List α) (l : List α) :
    (keepFirst seen l).Nodup := by
  induction l generalizing seen with
  | nil => simp [keepFirst]
  | cons a rest ih =>
    by_cases h : a ∈ seen
    · rw [keepFirst, if_pos h]; exact ih seen
    · rw [keepFirst, if_neg h]
      refine List.nodup_cons.mpr ⟨?_, ih (a :: seen)⟩
      intro hc
      exact keepFirst_not_mem_seen (a :: seen) rest a hc (List.mem_cons_self _ _)

theorem keepFirst_of_nodup [DecidableEq α] (seen : List α) (l : List α)
    (hn : l.Nodup) (hd : ∀ x ∈ l, x ∉ seen) : keepFirst seen l = l := by
  induction l generalizing seen with
  | nil => simp [keepFirst]
  | cons a rest ih =>
    rw [keepFirst, if_neg (hd a (List.mem_cons_self _ _))]
    congr 1
    apply ih
    · exact (List.nodup_cons.mp hn).2
    · intro x hx
      intro hc
      rcases List.mem_cons.mp hc with rfl | hc
      · exact (List.nodup_cons.mp hn).1 hx
      · exact hd x (List.mem_cons_of_mem _ hx) hc

theorem keepFirst_idem [DecidableEq α] (l : List α) :
    keepFirst [] (keepFirst [] l) = keepFirst [] l := by
  apply keepFirst_of_nodup
  · exact keepFirst_nodup [] l
  · intro x _ hc
    simp at hc

theorem keepFirst_length_add_dups [DecidableEq α] (d : α) (l : List α) :
    (keepFirst [] l).length +
      ((List.range l.length).filter
        (fun i => l.getD i d ∈ l.take i)).length = l.length := by
  rw [keepFirst_eq_filter_range d, List.length_map]
  have hsplit :
      ((List.range l.length).filter
          (fun i => l.getD i d ∉ ([] : List α) ∧ l.getD i d ∉ l.take i)).length =
        ((List.range l.length).filter
          (fun i => decide (l.getD i d ∉ l.take i))).length := by
    congr 1
    apply List.filter_congr
    intro i _
    simp
  rw [hsplit]
  have hnot :
      ((List.range l.length).filter
          (fun i => !decide (l.getD i d ∉ l.take i))).length =
        ((List.range l.length).filter
          (fun i => l.getD i d ∈ l.take i)).length := by
    congr 1
    apply List.filter_congr
    intro i _
    by_cases h : l.getD i d ∈ l.take i <;> simp [h]
  rw [← hnot, ← List.length_eq_length_filter_add, List.length_range]

theorem isSpace_lowerCode (c : Nat) :
    isSpaceCode (lowerCode c) = isSpaceCode c := by
  unfold lowerCode isSpaceCode
  split
  · rw [decide_eq_decide]
    omega
  · rfl

theorem lowerCode_idem (c : Nat) : lowerCode (lowerCode c) = lowerCode c := by
  unfold lowerCode
  split
  · rw [if_neg (by omega)]
  · rfl

theorem lowerCodes_idem (s : List Nat) :
    lowerCodes (lowerCodes s) = lowerCodes s := by
  unfold lowerCodes
  rw [List.map_map]
  apply List.map_congr_left
  intro c _
  exact lowerCode_idem c

theorem dropWhile_lowerCodes (l : List Nat) :
    (lowerCodes l).dropWhile isSpaceCode =
      lowerCodes (l.dropWhile isSpaceCode) := by
  induction l with
  | nil => rfl
  | cons a t ih =>
    by_cases h : isSpaceCode a
    · rw [lowerCodes, List.map_cons,
        List.dropWhile_cons_of_pos (by rw [isSpace_lowerCode]; exact h),
        List.dropWhile_cons_of_pos h]
      exact ih
    · rw [lowerCodes, List.map_cons,
        List.dropWhile_cons_of_neg (by rw [isSpace_lowerCode]; exact h),
        List.dropWhile_cons_of_neg h]
      rfl

theorem reverse_lowerCodes (l : List Nat) :
    (lowerCodes l).reverse = lowerCodes l.reverse := by
  unfold lowerCodes
  rw [← List.map_reverse]

theorem dropWhile_head_false (p : α → Bool) (l : List α) (a : α) (x : List α)
    (h : l.dropWhile p = a :: x) : p a = false := by
  induction l with
  | nil => simp [List.dropWhile] at h
  | cons b t ih =>
    by_cases hb : p b
    · rw [List.dropWhile_cons_of_pos hb] at h
      exact ih h
    · rw [List.dropWhile_cons_of_neg hb] at h
      cases h
      simpa using hb

theorem stripCodes_lowerCodes (s : List Nat) :
    stripCodes (lowerCodes s) = lowerCodes (stripCodes s) := by
  unfold stripCodes
  rw [dropWhile_lowerCodes, reverse_lowerCodes, dropWhile_lowerCodes,
    reverse_lowerCodes]

theorem stripCodes_idem (s : List Nat) :
    stripCodes (stripCodes s) = stripCodes s := by
  have hrd : ∀ l : List Nat,
      stripCodes l = List.rdropWhile isSpaceCode (l.dropWhile isSpaceCode) := by
    intro l; rfl
  rw [hrd, hrd]
  have h2 : (List.rdropWhile isSpaceCode
        (s.dropWhile isSpaceCode)).dropWhile isSpaceCode =
      List.rdropWhile isSpaceCode (s.dropWhile isSpaceCode) := by
    obtain ⟨t, ht⟩ :=
      List.rdropWhile_prefix isSpaceCode (s.dropWhile isSpaceCode)
    cases hR : List.rdropWhile isSpaceCode (s.dropWhile isSpaceCode) with
    | nil => rfl
    | cons a rest =>
      rw [hR] at ht
      have hfalse : isSpaceCode a = false :=
        dropWhile_head_false isSpaceCode s a (rest ++ t) (by rw [← ht]; rfl)
      rw [List.dropWhile_cons_of_neg (by simp [hfalse])]
  rw [h2, List.rdropWhile_idempotent]

theorem normalizeValue_idem (v : Value) :
    normalizeValue (normalizeValue v) = normalizeValue v := by
  cases v with
  | na => rfl
  | str s =>
    show Value.str (lowerCodes (stripCodes (lowerCodes (stripCodes s)))) = _
    rw [stripCodes_lowerCodes, lowerCodes_idem, stripCodes_idem]
    rfl
  | int n =>
    show Value.str (lowerCodes (stripCodes (lowerCodes (stripCodes _)))) = _
    rw [stripCodes_lowerCodes, lowerCodes_idem, stripCodes_idem]
    rfl
  | real q =>
    show Value.str (lowerCodes (stripCodes (lowerCodes (stripCodes _)))) = _
    rw [stripCodes_lowerCodes, lowerCodes_idem, stripCodes_idem]
    rfl
  | dtime n =>
    show Value.str (lowerCodes (stripCodes (lowerCodes (stripCodes _)))) = _
    rw [stripCodes_lowerCodes, lowerCodes_idem, stripCodes_idem]
    rfl

theorem mapAt_nil (i : Nat) (f : α → α) : mapAt i f ([] : List α) = [] := by
  cases i <;> simp [mapAt]

theorem mapAt_cons_zero (f : α → α) (x : α) (xs : List α) :
    mapAt 0 f (x :: xs) = f x :: xs := by
  simp [mapAt]

theorem mapAt_cons_succ (j : Nat) (f : α → α) (x : α) (xs : List α) :
    mapAt (j + 1) f (x :: xs) = x :: mapAt j f xs := by
  simp [mapAt]

theorem mapAt_length (i : Nat) (f : α → α) (l : List α) :
    (mapAt i f l).length = l.length := by
  induction l generalizing i with
  | nil => rw [mapAt_nil]
  | cons x xs ih =>
    cases i with
    | zero => rw [mapAt_cons_zero]; simp
    | succ j => rw [mapAt_cons_succ]; simp [ih]

theorem mapAt_getD_ne (i j : Nat) (f : α → α) (l : List α) (d : α)
    (h : j ≠ i) : (mapAt i f l).getD j d = l.getD j d := by
  induction l generalizing i j with
  | nil => rw [mapAt_nil]
  | cons x xs ih =>
    cases i with
    | zero =>
      cases j with
      | zero => exact absurd rfl h
      | succ k => rw [mapAt_cons_zero]; rfl
    | succ i2 =>
      cases j with
      | zero => rw [mapAt_cons_succ]; rfl
      | succ k =>
        rw [mapAt_cons_succ]
        show (mapAt i2 f xs).getD k d = xs.getD k d
        exact ih i2 k (fun hc => h (by rw [hc]))

theorem mapAt_getD_eq (i : Nat) (f : α → α) (l : List α) (d : α)
    (h : i < l.length) : (mapAt i f l).getD i d = f (l.getD i d) := by
  induction l generalizing i with
  | nil => simp at h
  | cons x xs ih =>
    cases i with
    | zero => rw [mapAt_cons_zero]; rfl
    | succ j =>
      rw [mapAt_cons_succ]
      show (mapAt j f xs).getD j d = f (xs.getD j d)
      exact ih j (by simpa using h)

theorem mapAt_idem (i : Nat) (f : α → α) (l : List α)
    (hf : ∀ x, f (f x) = f x) : mapAt i f (mapAt i f l) = mapAt i f l := by
  induction l generalizing i with
  | nil => rw [mapAt_nil, mapAt_nil]
  | cons x xs ih =>
    cases i with
    | zero => rw [mapAt_cons_zero, mapAt_cons_zero, hf]
    | succ j => rw [mapAt_cons_succ, mapAt_cons_succ, ih]

theorem colIdx_eq_none (t : Table) (c : String) (h : c ∉ t.colNames) :
    t.colIdx c = none := by
  unfold Table.colIdx
  rw [List.findIdx?_eq_none_iff]
  intro n hn
  by_cases hcn : n = c
  · exact absurd (hcn ▸ hn) h
  · simpa using hcn

/-- C1: `remove_duplicate_records` removes exactly those rows equal, in every
column compared positionally first-to-last, to an earlier row; it keeps the
first occurrence, preserves the relative order of the surviving rows,
decreases the row count by exactly the number of strict duplicates, and is
idempotent. -/
theorem claim_C1_remove_duplicate_records :
    ∀ t : Table,
      (remove_duplicate_records t).colNames = t.colNames ∧
      (remove_duplicate_records t).rows =
        ((List.range t.rows.length).filter
            (fun i => t.rows.getD i [] ∉ t.rows.take i)).map
          (fun i => t.rows.getD i []) ∧
      (remove_duplicate_records t).rows.length +
        ((List.range t.rows.length).filter
          (fun i => t.rows.getD i [] ∈ t.rows.take i)).length =
        t.rows.length ∧
      remove_duplicate_records (remove_duplicate_records t) =
        remove_duplicate_records t := by
  intro t
  refine ⟨rfl, ?_, ?_, ?_⟩
  · show keepFirst [] t.rows = _
    rw [keepFirst_eq_filter_range ([] : List Value)]
    congr 1
    apply List.filter_congr
    intro i _
    simp
  · have h := keepFirst_length_add_dups ([] : List Value) t.rows
    convert h using 5
    exact decide_eq_decide.mpr Iff.rfl
  · show remove_duplicate_records _ = _
    unfold remove_duplicate_records
    simp only []
    congr 1
    exact keepFirst_idem t.rows

/-- C2: `handle_missing_data` with the drop flag removes every row containing
at least one missing entry in any column (drop takes priority over a
simultaneously supplied fill value); otherwise a supplied fill value replaces
every missing entry in every column; with neither, the table is returned
unchanged (the operation is total, so it cannot raise). -/
theorem claim_C2_handle_missing_data :
    ∀ (t : Table) (fv : Option Value) (v : Value),
      (handle_missing_data t fv true).colNames = t.colNames ∧
      (handle_missing_data t fv true).rows =
        t.rows.filter (fun r => decide (∀ x ∈ r, x ≠ Value.na)) ∧
      (handle_missing_data t (some v) false).colNames = t.colNames ∧
      (handle_missing_data t (some v) false).rows =
        t.rows.map (List.map (fun x => if x = Value.na then v else x)) ∧
      handle_missing_data t none false = t := by
  intro t fv v
  refine ⟨rfl, ?_, rfl, rfl, rfl⟩
  show t.rows.filter (fun r => !rowHasNa r) = _
  apply List.filter_congr
  intro r _
  unfold rowHasNa
  rw [Bool.eq_iff_iff]
  simp [List.any_eq_true]

/-- C3: for every table and every existing column name,
`format_column_strings_to_lower_and_trim` succeeds, keeps the column names,
row count and row order, rewrites exactly the addressed column by converting
each non-missing value to trimmed lower-case text while leaving missing
values untouched, and is idempotent. -/
theorem claim_C3_format_column_strings (t : Table) (c : String) (i : Nat)
    (h : t.colIdx c = some i) :
    (∃ r : Table,
      format_column_strings_to_lower_and_trim t c = Except.ok r ∧
      r.colNames = t.colNames ∧
      r.rows.length = t.rows.length ∧
      r.rows = t.rows.map (mapAt i normalizeValue) ∧
      format_column_strings_to_lower_and_trim r c = Except.ok r) ∧
    normalizeValue Value.na = Value.na ∧
    (∀ v, v ≠ Value.na →
      normalizeValue v = Value.str (lowerCodes (stripCodes (valueText v)))) ∧
    (∀ (j : Nat) (d : Value) (row : List Value), j ≠ i →
      (mapAt i normalizeValue row).getD j d = row.getD j d) ∧
    (∀ row : List Value, i < row.length →
      (mapAt i normalizeValue row).getD i Value.na =
        normalizeValue (row.getD i Value.na)) := by
  refine ⟨?_, rfl, ?_, ?_, ?_⟩
  · refine ⟨{ t with rows := t.rows.map (mapAt i normalizeValue) }, ?_, rfl,
      by simp, rfl, ?_⟩
    · unfold format_column_strings_to_lower_and_trim
      rw [h]
    · unfold format_column_strings_to_lower_and_trim
      have h2 : Table.colIdx
          { t with rows := t.rows.map (mapAt i normalizeValue) } c = some i := h
      rw [h2]
      have hrows :
          (t.rows.map (mapAt i normalizeValue)).map (mapAt i normalizeValue) =
            t.rows.map (mapAt i normalizeValue) := by
        rw [List.map_map]
        apply List.map_congr_left
        intro row _
        exact mapAt_idem i normalizeValue row normalizeValue_idem
      show Except.ok
          ({ colNames := t.colNames,
             rows :=
               (t.rows.map (mapAt i normalizeValue)).map
                 (mapAt i normalizeValue) } : Table) =
        Except.ok
          ({ colNames := t.colNames,
             rows := t.rows.map (mapAt i normalizeValue) } : Table)
      rw [hrows]
  · intro v hv
    cases v with
    | na => exact absurd rfl hv
    | str s => rfl
    | int n => rfl
    | real q => rfl
    | dtime n => rfl
  · intro j d row hj
    exact mapAt_getD_ne i j normalizeValue row d hj
  · intro row hrow
    exact mapAt_getD_eq i normalizeValue row Value.na hrow

/-- Witness for C3 at a concrete one-column table holding the text
`" ACTIVE "` and a missing value. -/
theorem claim_C3_witness :
    (Table.colIdx
        { colNames := ["Status"],
          rows := [[Value.str [32, 65, 67, 84, 73, 86, 69, 32]], [Value.na]] }
        "Status" = some 0) ∧
    ((∃ r : Table,
      format_column_strings_to_lower_and_trim
          { colNames := ["Status"],
            rows := [[Value.str [32, 65, 67, 84, 73, 86, 69, 32]],
              [Value.na]] } "Status" = Except.ok r ∧
      r.colNames =
        (Table.mk ["Status"]
          [[Value.str [32, 65, 67, 84, 73, 86, 69, 32]], [Value.na]]).colNames ∧
      r.rows.length =
        (Table.mk ["Status"]
          [[Value.str [32, 65, 67, 84, 73, 86, 69, 32]],
            [Value.na]]).rows.length ∧
      r.rows =
        (Table.mk ["Status"]
          [[Value.str [32, 65, 67, 84, 73, 86, 69, 32]],
            [Value.na]]).rows.map (mapAt 0 normalizeValue) ∧
      format_column_strings_to_lower_and_trim r "Status" = Except.ok r) ∧
    normalizeValue Value.na = Value.na ∧
    (∀ v, v ≠ Value.na →
      normalizeValue v = Value.str (lowerCodes (stripCodes (valueText v)))) ∧
    (∀ (j : Nat) (d : Value) (row : List Value), j ≠ 0 →
      (mapAt 0 normalizeValue row).getD j d = row.getD j d) ∧
    (∀ row : List Value, 0 < row.length →
      (mapAt 0 normalizeValue row).getD 0 Value.na =
        normalizeValue (row.getD 0 Value.na))) :=
  ⟨by decide,
    claim_C3_format_column_strings
      { colNames := ["Status"],
        rows := [[Value.str [32, 65, 67, 84, 73, 86, 69, 32]], [Value.na]] }
      "Status" 0 (by decide)⟩

/-- C4: for every table, every existing column name and every target type
tag, `convert_column_to_new_data_type` succeeds (it never raises on data
content); a non-missing value that cannot be coerced to the target type
becomes the missing marker, and the missing marker is preserved. -/
theorem claim_C4_convert_column (t : Table) (c : String) (i : Nat)
    (target : DType) (h : t.colIdx c = some i) :
    convert_column_to_new_data_type t c target =
      Except.ok { t with rows := t.rows.map (mapAt i (coerceValue target)) } ∧
    coerceValue target Value.na = Value.na ∧
    (∀ s, parseIntCodes s = none →
      coerceValue DType.int64 (Value.str s) = Value.na) ∧
    (∀ s, parseFloatCodes s = none →
      coerceValue DType.float64 (Value.str s) = Value.na) ∧
    (∀ q : Rat, q.den ≠ 1 → coerceValue DType.int64 (Value.real q) = Value.na) := by
  refine ⟨?_, ?_, ?_, ?_, ?_⟩
  · unfold convert_column_to_new_data_type
    rw [h]
  · cases target <;> rfl
  · intro s hs
    show (match parseIntCodes s with
          | some n => Value.int n
          | none => Value.na) = Value.na
    rw [hs]
  · intro s hs
    show (match parseFloatCodes s with
          | some q => Value.real q
          | none => Value.na) = Value.na
    rw [hs]
  · intro q hq
    show (if q.den = 1 then Value.int q.num else Value.na) = Value.na
    rw [if_neg hq]

/-- Witness for C4 at a concrete table whose `Amount` column holds the
non-numeric text `abc`, converted to the 64-bit nullable integer type. -/
theorem claim_C4_witness :
    (Table.colIdx
        { colNames := ["Amount"], rows := [[Value.str [97, 98, 99]]] }
        "Amount" = some 0) ∧
    (convert_column_to_new_data_type
        { colNames := ["Amount"], rows := [[Value.str [97, 98, 99]]] }
        "Amount" DType.int64 =
      Except.ok
        { colNames := ["Amount"],
          rows :=
            (Table.mk ["Amount"] [[Value.str [97, 98, 99]]]).rows.map
              (mapAt 0 (coerceValue DType.int64)) } ∧
    coerceValue DType.int64 Value.na = Value.na ∧
    (∀ s, parseIntCodes s = none →
      coerceValue DType.int64 (Value.str s) = Value.na) ∧
    (∀ s, parseFloatCodes s = none →
      coerceValue DType.float64 (Value.str s) = Value.na) ∧
    (∀ q : Rat, q.den ≠ 1 →
      coerceValue DType.int64 (Value.real q) = Value.na)) :=
  ⟨by decide,
    claim_C4_convert_column
      { colNames := ["Amount"], rows := [[Value.str [97, 98, 99]]] }
      "Amount" 0 DType.int64 (by decide)⟩

/-- C5: for every table and every existing column name,
`parse_dates_to_add_standard_datetime` succeeds, appending a new
`StandardDateTime` column holding the parsed value per row while leaving
every original column of every row unchanged; unparseable entries map to
the missing marker; with an absent input column it fails with
`ColumnNotFound`. -/
theorem claim_C5_parse_dates (t : Table) (c : String) (i : Nat)
    (h : t.colIdx c = some i) :
    parse_dates_to_add_standard_datetime t c =
      Except.ok
        { colNames := t.colNames ++ ["StandardDateTime"],
          rows := t.rows.map (fun r =>
            r ++ [match parseDateValue (r.getD i Value.na) with
                  | some n => Value.dtime n
                  | none => Value.na]) } ∧
    (∀ (r : List Value) (x d : Value) (j : Nat), j < r.length →
      (r ++ [x]).getD j d = r.getD j d) ∧
    (∀ v, parseDateValue v = none →
      (match parseDateValue v with
       | some n => Value.dtime n
       | none => Value.na) = Value.na) ∧
    (∀ c2, c2 ∉ t.colNames →
      parse_dates_to_add_standard_datetime t c2 =
        Except.error (ScrubError.columnNotFound c2)) := by
  refine ⟨?_, ?_, ?_, ?_⟩
  · unfold parse_dates_to_add_standard_datetime
    rw [h]
  · intro r x d j hj
    exact List.getD_append r [x] d j hj
  · intro v hv
    rw [hv]
  · intro c2 hc2
    unfold parse_dates_to_add_standard_datetime
    rw [colIdx_eq_none t c2 hc2]

/-- Witness for C5 at a concrete table whose `Date` column holds a parseable
text date and an unparseable one. -/
theorem claim_C5_witness :
    (Table.colIdx
        { colNames := ["Date"],
          rows := [[Value.str [50, 48, 50, 51, 45, 48, 49, 45, 48, 49]],
            [Value.str [98, 97, 100]]] } "Date" = some 0) ∧
    (parse_dates_to_add_standard_datetime
        { colNames := ["Date"],
          rows := [[Value.str [50, 48, 50, 51, 45, 48, 49, 45, 48, 49]],
            [Value.str [98, 97, 100]]] } "Date" =
      Except.ok
        { colNames :=
            (Table.mk ["Date"]
              [[Value.str [50, 48, 50, 51, 45, 48, 49, 45, 48, 49]],
                [Value.str [98, 97, 100]]]).colNames ++ ["StandardDateTime"],
          rows :=
            (Table.mk ["Date"]
              [[Value.str [50, 48, 50, 51, 45, 48, 49, 45, 48, 49]],
                [Value.str [98, 97, 100]]]).rows.map (fun r =>
              r ++ [match parseDateValue (r.getD 0 Value.na) with
                    | some n => Value.dtime n
                    | none => Value.na]) } ∧
    (∀ (r : List Value) (x d : Value) (j : Nat), j < r.length →
      (r ++ [x]).getD j d = r.getD j d) ∧
    (∀ v, parseDateValue v = none →
      (match parseDateValue v with
       | some n => Value.dtime n
       | none => Value.na) = Value.na) ∧
    (∀ c2, c2 ∉ (Table.mk ["Date"]
        [[Value.str [50, 48, 50, 51, 45, 48, 49, 45, 48, 49]],
          [Value.str [98, 97, 100]]]).colNames →
      parse_dates_to_add_standard_datetime
          (Table.mk ["Date"]
            [[Value.str [50, 48, 50, 51, 45, 48, 49, 45, 48, 49]],
              [Value.str [98, 97, 100]]]) c2 =
        Except.error (ScrubError.columnNotFound c2))) :=
  ⟨by decide,
    claim_C5_parse_dates
      { colNames := ["Date"],
        rows := [[Value.str [50, 48, 50, 51, 45, 48, 49, 45, 48, 49]],
          [Value.str [98, 97, 100]]] } "Date" 0 (by decide)⟩

/-- C6: invoking any column-targeted operation (normalize text, parse dates,
convert type, rename) with a column name absent from the table fails with
`ColumnNotFound` carrying the missing name and leaves the scrubber's table
completely unmutated; with existing columns each of these operations
succeeds, so a missing column is the only fatal condition. -/
theorem claim_C6_column_not_found (t : Table) (c : String)
    (hc : c ∉ t.colNames) :
    format_column_strings_to_lower_and_trim t c =
      Except.error (ScrubError.columnNotFound c) ∧
    parse_dates_to_add_standard_datetime t c =
      Except.error (ScrubError.columnNotFound c) ∧
    (∀ target, convert_column_to_new_data_type t c target =
      Except.error (ScrubError.columnNotFound c)) ∧
    (∀ d rest, rename_columns t ((c, d) :: rest) =
      Except.error (ScrubError.columnNotFound c)) ∧
    scrubberAfter (fun u => format_column_strings_to_lower_and_trim u c) t = t ∧
    scrubberAfter (fun u => parse_dates_to_add_standard_datetime u c) t = t ∧
    (∀ target,
      scrubberAfter (fun u => convert_column_to_new_data_type u c target) t
        = t) ∧
    (∀ d rest,
      scrubberAfter (fun u => rename_columns u ((c, d) :: rest)) t = t) ∧
    (∀ c2 i, t.colIdx c2 = some i →
      (∃ r, format_column_strings_to_lower_and_trim t c2 = Except.ok r) ∧
      (∃ r, parse_dates_to_add_standard_datetime t c2 = Except.ok r) ∧
      (∀ target, ∃ r,
        convert_column_to_new_data_type t c2 target = Except.ok r)) ∧
    (∀ m, (∀ p ∈ m, p.1 ∈ t.colNames) → ∃ r, rename_columns t m = Except.ok r) := by
  have hnone : t.colIdx c = none := colIdx_eq_none t c hc
  have h1 : format_column_strings_to_lower_and_trim t c =
      Except.error (ScrubError.columnNotFound c) := by
    unfold format_column_strings_to_lower_and_trim
    rw [hnone]
  have h2 : parse_dates_to_add_standard_datetime t c =
      Except.error (ScrubError.columnNotFound c) := by
    unfold parse_dates_to_add_standard_datetime
    rw [hnone]
  have h3 : ∀ target, convert_column_to_new_data_type t c target =
      Except.error (ScrubError.columnNotFound c) := by
    intro target
    unfold convert_column_to_new_data_type
    rw [hnone]
  have hcfalse : t.colNames.contains c = false := by
    show List.elem c t.colNames = false
    rw [List.elem_eq_mem]
    exact decide_eq_false hc
  have h4 : ∀ d rest, rename_columns t ((c, d) :: rest) =
      Except.error (ScrubError.columnNotFound c) := by
    intro d rest
    unfold rename_columns
    rw [List.find?_cons_of_pos]
    show (!t.colNames.contains c) = true
    rw [hcfalse]
    rfl
  refine ⟨h1, h2, h3, h4, ?_, ?_, ?_, ?_, ?_, ?_⟩
  · show (match format_column_strings_to_lower_and_trim t c with
          | Except.ok r => r
          | Except.error _ => t) = t
    rw [h1]
  · show (match parse_dates_to_add_standard_datetime t c with
          | Except.ok r => r
          | Except.error _ => t) = t
    rw [h2]
  · intro target
    show (match convert_column_to_new_data_type t c target with
          | Except.ok r => r
          | Except.error _ => t) = t
    rw [h3 target]
  · intro d rest
    show (match rename_columns t ((c, d) :: rest) with
          | Except.ok r => r
          | Except.error _ => t) = t
    rw [h4 d rest]
  · intro c2 i hsome
    refine ⟨⟨{ t with rows := t.rows.map (mapAt i normalizeValue) }, ?_⟩,
      ⟨{ colNames := t.colNames ++ ["StandardDateTime"],
         rows := t.rows.map (fun r =>
           r ++ [match parseDateValue (r.getD i Value.na) with
                 | some n => Value.dtime n
                 | none => Value.na]) }, ?_⟩,
      fun target =>
        ⟨{ t with rows := t.rows.map (mapAt i (coerceValue target)) }, ?_⟩⟩
    · unfold format_column_strings_to_lower_and_trim
      rw [hsome]
    · unfold parse_dates_to_add_standard_datetime
      rw [hsome]
    · unfold convert_column_to_new_data_type
      rw [hsome]
  · intro m hm
    refine ⟨{ t with colNames := t.colNames.map (fun n =>
      match m.lookup n with
      | some n2 => n2
      | none => n) }, ?_⟩
    unfold rename_columns
    rw [List.find?_eq_none.mpr]
    intro p hp
    show ¬(!t.colNames.contains p.1) = true
    have hmem : List.elem p.1 t.colNames = true := by
      rw [List.elem_eq_mem]
      exact decide_eq_true (hm p hp)
    show ¬(!List.elem p.1 t.colNames) = true
    rw [hmem]
    simp

/-- Witness for C6: the single-column table `["Name"]` with the absent
column name `"Nope"`. -/
theorem claim_C6_witness :
    ("Nope" ∉ (Table.mk ["Name"] [[Value.int 1]]).colNames) ∧
    (format_column_strings_to_lower_and_trim
        (Table.mk ["Name"] [[Value.int 1]]) "Nope" =
      Except.error (ScrubError.columnNotFound "Nope") ∧
    parse_dates_to_add_standard_datetime
        (Table.mk ["Name"] [[Value.int 1]]) "Nope" =
      Except.error (ScrubError.columnNotFound "Nope") ∧
    (∀ target, convert_column_to_new_data_type
        (Table.mk ["Name"] [[Value.int 1]]) "Nope" target =
      Except.error (ScrubError.columnNotFound "Nope")) ∧
    (∀ d rest, rename_columns
        (Table.mk ["Name"] [[Value.int 1]]) (("Nope", d) :: rest) =
      Except.error (ScrubError.columnNotFound "Nope")) ∧
    scrubberAfter
        (fun u => format_column_strings_to_lower_and_trim u "Nope")
        (Table.mk ["Name"] [[Value.int 1]]) =
      Table.mk ["Name"] [[Value.int 1]] ∧
    scrubberAfter
        (fun u => parse_dates_to_add_standard_datetime u "Nope")
        (Table.mk ["Name"] [[Value.int 1]]) =
      Table.mk ["Name"] [[Value.int 1]] ∧
    (∀ target,
      scrubberAfter
          (fun u => convert_column_to_new_data_type u "Nope" target)
          (Table.mk ["Name"] [[Value.int 1]]) =
        Table.mk ["Name"] [[Value.int 1]]) ∧
    (∀ d rest,
      scrubberAfter (fun u => rename_columns u (("Nope", d) :: rest))
          (Table.mk ["Name"] [[Value.int 1]]) =
        Table.mk ["Name"] [[Value.int 1]]) ∧
    (∀ c2 i, (Table.mk ["Name"] [[Value.int 1]]).colIdx c2 = some i →
      (∃ r, format_column_strings_to_lower_and_trim
          (Table.mk ["Name"] [[Value.int 1]]) c2 = Except.ok r) ∧
      (∃ r, parse_dates_to_add_standard_datetime
          (Table.mk ["Name"] [[Value.int 1]]) c2 = Except.ok r) ∧
      (∀ target, ∃ r, convert_column_to_new_data_type
          (Table.mk ["Name"] [[Value.int 1]]) c2 target = Except.ok r)) ∧
    (∀ m, (∀ p ∈ m, p.1 ∈ (Table.mk ["Name"] [[Value.int 1]]).colNames) →
      ∃ r, rename_columns (Table.mk ["Name"] [[Value.int 1]]) m =
        Except.ok r)) :=
  ⟨by decide,
    claim_C6_column_not_found (Table.mk ["Name"] [[Value.int 1]]) "Nope"
      (by decide)⟩

theorem colIdx_none_not_mem (t : Table) (c : String)
    (h : t.colIdx c = none) : c ∉ t.colNames := by
  intro hc
  unfold Table.colIdx at h
  rw [List.findIdx?_eq_none_iff] at h
  have := h c hc
  simp at this

theorem colIdx_some_mem (t : Table) (c : String) (i : Nat)
    (h : t.colIdx c = some i) : c ∈ t.colNames := by
  by_contra hc
  rw [colIdx_eq_none t c hc] at h
  exact Option.noConfusion h

theorem contains_eq_decide_mem (l : List String) (c : String) :
    l.contains c = decide (c ∈ l) := by
  show List.elem c l = decide (c ∈ l)
  rw [List.elem_eq_mem]

theorem insertRowsFor_missing (mapping : List (String × String))
    (key : String) (df : Table)
    (hmiss : ∃ src ∈ mapping.map Prod.snd, src ∉ df.colNames) :
    ∃ e, insertRowsFor mapping key df = Except.error e ∧
      (key ∈ df.colNames →
        errNames e = (mapping.map Prod.snd).filter
          (fun src => decide (src ∉ df.colNames))) ∧
      (key ∉ df.colNames → errNames e = [key]) := by
  obtain ⟨src, hsrc, habs⟩ := hmiss
  have hfilter :
      (mapping.map Prod.snd).filter (fun s2 => !(df.colNames.contains s2)) =
        (mapping.map Prod.snd).filter (fun s2 => decide (s2 ∉ df.colNames)) := by
    apply List.filter_congr
    intro s2 _
    rw [contains_eq_decide_mem]
    by_cases h : s2 ∈ df.colNames <;> simp [h]
  cases hidx : df.colIdx key with
  | some i =>
    have hkey : key ∈ df.colNames := colIdx_some_mem df key i hidx
    have hmem : src ∈ (mapping.map Prod.snd).filter
        (fun s2 => !(df.colNames.contains s2)) := by
      apply List.mem_filter.mpr
      refine ⟨hsrc, ?_⟩
      rw [contains_eq_decide_mem, decide_eq_false habs]
      rfl
    have hne : ((mapping.map Prod.snd).filter
        (fun s2 => !(df.colNames.contains s2))).isEmpty = false := by
      rw [Bool.eq_false_iff]
      intro hE
      rw [List.isEmpty_iff] at hE
      rw [hE] at hmem
      exact List.not_mem_nil _ hmem
    refine ⟨.valueError ((mapping.map Prod.snd).filter
      (fun s2 => !(df.colNames.contains s2))), ?_, ?_, ?_⟩
    · unfold insertRowsFor drop_duplicates_subset
      rw [hidx]
      show (if ((mapping.map Prod.snd).filter
          (fun s2 => !(df.colNames.contains s2))).isEmpty = true
        then _ else _) = _
      rw [hne]
      simp
    · intro _
      show ((mapping.map Prod.snd).filter
        (fun s2 => !(df.colNames.contains s2))) = _
      exact hfilter
    · intro hk
      exact absurd hkey hk
  | none =>
    have hkey : key ∉ df.colNames := colIdx_none_not_mem df key hidx
    refine ⟨.keyError [key], ?_, ?_, ?_⟩
    · unfold insertRowsFor drop_duplicates_subset
      rw [hidx]
    · intro hk
      exact absurd hk hkey
    · intro _
      rfl

/-- C7: the warehouse load is idempotent: `load_data_to_db` clears the fact
table first, then the dimension tables, re-inserts the prepared datasets,
and its outcome does not depend on the previous warehouse state, so running
the load twice on the same prepared files leaves the warehouse in the same
state as running it once. -/
theorem claim_C7_load_idempotent (files : PreparedFiles) (s s2 : DwState) :
    load_data_to_db files (load_data_to_db files s) =
      load_data_to_db files s ∧
    delete_existing_records s =
      { customer := [], product := [], sale := [] } ∧
    loadTransaction files s = loadTransaction files s2 ∧
    (∀ t, loadTransaction files s = Except.ok t →
      load_data_to_db files s = t ∧ load_data_to_db files t = t) := by
  have hind : ∀ u v : DwState,
      loadTransaction files u = loadTransaction files v := fun u v => rfl
  refine ⟨?_, rfl, hind s s2, ?_⟩
  · cases h : loadTransaction files s with
    | ok t =>
      have h1 : load_data_to_db files s = t := by
        unfold load_data_to_db
        rw [h]
      have h2 : loadTransaction files t = Except.ok t := by
        rw [hind t s, h]
      rw [h1]
      unfold load_data_to_db
      rw [h2]
    | error e =>
      have h1 : load_data_to_db files s = s := by
        unfold load_data_to_db
        rw [h]
      rw [h1, h1]
  · intro t ht
    have h1 : load_data_to_db files s = t := by
      unfold load_data_to_db
      rw [ht]
    have h2 : loadTransaction files t = Except.ok t := by
      rw [hind t s, ht]
    refine ⟨h1, ?_⟩
    unfold load_data_to_db
    rw [h2]

/-- Witness for C7 at concrete prepared files (all required columns present,
no data rows) and a non-empty previous warehouse state. -/
theorem claim_C7_witness :
    loadTransaction
        { customers :=
            { colNames := ["CustomerID", "Name", "Region", "JoinDate",
                "LoyaltyPoints", "PreferredContactMethod"], rows := [] },
          products :=
            { colNames := ["productid", "productname", "category",
                "unitprice", "stockquantity", "suppliername"], rows := [] },
          sales :=
            { colNames := ["TransactionID", "CustomerID", "ProductID",
                "StoreID", "CampaignID", "SaleDate", "SaleAmount",
                "DiscountPercent", "PaymentType"], rows := [] } }
        { customer := [[Value.int 9]], product := [], sale := [[Value.int 8]] } =
      Except.ok { customer := [], product := [], sale := [] } ∧
    load_data_to_db
        { customers :=
            { colNames := ["CustomerID", "Name", "Region", "JoinDate",
                "LoyaltyPoints", "PreferredContactMethod"], rows := [] },
          products :=
            { colNames := ["productid", "productname", "category",
                "unitprice", "stockquantity", "suppliername"], rows := [] },
          sales :=
            { colNames := ["TransactionID", "CustomerID", "ProductID",
                "StoreID", "CampaignID", "SaleDate", "SaleAmount",
                "DiscountPercent", "PaymentType"], rows := [] } }
        { customer := [[Value.int 9]], product := [], sale := [[Value.int 8]] } =
      { customer := [], product := [], sale := [] } ∧
    load_data_to_db
        { customers :=
            { colNames := ["CustomerID", "Name", "Region", "JoinDate",
                "LoyaltyPoints", "PreferredContactMethod"], rows := [] },
          products :=
            { colNames := ["productid", "productname", "category",
                "unitprice", "stockquantity", "suppliername"], rows := [] },
          sales :=
            { colNames := ["TransactionID", "CustomerID", "ProductID",
                "StoreID", "CampaignID", "SaleDate", "SaleAmount",
                "DiscountPercent", "PaymentType"], rows := [] } }
        { customer := [], product := [], sale := [] } =
      { customer := [], product := [], sale := [] } :=
  ⟨by decide,
    (claim_C7_load_idempotent
      { customers :=
          { colNames := ["CustomerID", "Name", "Region", "JoinDate",
              "LoyaltyPoints", "PreferredContactMethod"], rows := [] },
        products :=
          { colNames := ["productid", "productname", "category",
              "unitprice", "stockquantity", "suppliername"], rows := [] },
        sales :=
          { colNames := ["TransactionID", "CustomerID", "ProductID",
              "StoreID", "CampaignID", "SaleDate", "SaleAmount",
              "DiscountPercent", "PaymentType"], rows := [] } }
      { customer := [[Value.int 9]], product := [], sale := [[Value.int 8]] }
      { customer := [[Value.int 9]], product := [], sale := [[Value.int 8]] }).2.2.2
      { customer := [], product := [], sale := [] } (by decide)⟩

/-- C8 counterexample: on an input missing both `CustomerID` and `Name`,
`insert_customers` raises the pandas `KeyError` of
`drop_duplicates(subset=["CustomerID"])`, which names only `CustomerID`;
the equally-missing required column `Name` is not named, so the error does
not name every absent required source column. -/
theorem claim_C8_counterexample :
    insert_customers { colNames := ["Region"], rows := [] } =
      Except.error (EtlError.keyError ["CustomerID"]) ∧
    "Name" ∈ customerColumnMapping.map Prod.snd ∧
    "Name" ∉ ({ colNames := ["Region"], rows := [] } : Table).colNames ∧
    "Name" ∉ errNames (EtlError.keyError ["CustomerID"]) := by decide

/-- C8 (amended): each warehouse insert function raises an error and inserts
nothing whenever any required source column is absent; the error names every
absent required source column provided the primary-key column is present,
and names exactly the primary-key column when that column itself is absent. -/
theorem claim_C8_insert_missing_columns (df : Table) :
    (∀ src, src ∈ customerColumnMapping.map Prod.snd → src ∉ df.colNames →
      ∃ e, insert_customers df = Except.error e ∧
        ("CustomerID" ∈ df.colNames →
          errNames e = (customerColumnMapping.map Prod.snd).filter
            (fun s2 => decide (s2 ∉ df.colNames))) ∧
        ("CustomerID" ∉ df.colNames → errNames e = ["CustomerID"])) ∧
    (∀ src, src ∈ productColumnMapping.map Prod.snd → src ∉ df.colNames →
      ∃ e, insert_products df = Except.error e ∧
        ("productid" ∈ df.colNames →
          errNames e = (productColumnMapping.map Prod.snd).filter
            (fun s2 => decide (s2 ∉ df.colNames))) ∧
        ("productid" ∉ df.colNames → errNames e = ["productid"])) ∧
    (∀ src, src ∈ saleColumnMapping.map Prod.snd → src ∉ df.colNames →
      ∃ e, insert_sales df = Except.error e ∧
        ("TransactionID" ∈ df.colNames →
          errNames e = (saleColumnMapping.map Prod.snd).filter
            (fun s2 => decide (s2 ∉ df.colNames))) ∧
        ("TransactionID" ∉ df.colNames → errNames e = ["TransactionID"])) := by
  refine ⟨?_, ?_, ?_⟩
  · intro src hsrc habs
    exact insertRowsFor_missing customerColumnMapping "CustomerID" df
      ⟨src, hsrc, habs⟩
  · intro src hsrc habs
    exact insertRowsFor_missing productColumnMapping "productid" df
      ⟨src, hsrc, habs⟩
  · intro src hsrc habs
    exact insertRowsFor_missing saleColumnMapping "TransactionID" df
      ⟨src, hsrc, habs⟩

/-- Witness for C8 (amended) at the concrete frame whose only column is
`Region`: `Name` is a required customer source column that is absent. -/
theorem claim_C8_witness :
    ("Name" ∈ customerColumnMapping.map Prod.snd) ∧
    ("Name" ∉ ({ colNames := ["Region"], rows := [] } : Table).colNames) ∧
    (∃ e, insert_customers { colNames := ["Region"], rows := [] } =
        Except.error e ∧
      ("CustomerID" ∈ ({ colNames := ["Region"], rows := [] } : Table).colNames →
        errNames e = (customerColumnMapping.map Prod.snd).filter
          (fun s2 => decide
            (s2 ∉ ({ colNames := ["Region"], rows := [] } : Table).colNames))) ∧
      ("CustomerID" ∉ ({ colNames := ["Region"], rows := [] } : Table).colNames →
        errNames e = ["CustomerID"])) :=
  ⟨by decide, by decide,
    (claim_C8_insert_missing_columns { colNames := ["Region"], rows := [] }).1
      "Name" (by decide) (by decide)⟩

theorem replaceDU_id (s : List Nat) (h : hasDoubleUnderscore s = false) :
    replaceDoubleUnderscore s = s := by
  induction s with
  | nil => rfl
  | cons c t ih =>
    cases t with
    | nil => rfl
    | cons b rest =>
      show (if c = 95 ∧ b = 95 then 95 :: replaceDoubleUnderscore rest
            else c :: replaceDoubleUnderscore (b :: rest)) = c :: b :: rest
      have hdu : hasDoubleUnderscore (c :: b :: rest) =
          ((decide (c = 95) && decide (b = 95))
            || hasDoubleUnderscore (b :: rest)) := rfl
      rw [hdu] at h
      rcases Bool.or_eq_false_iff.mp h with ⟨hcb, htail⟩
      have h1 : ¬(c = 95 ∧ b = 95) := by
        rintro ⟨hc, hb⟩
        rw [hc, hb] at hcb
        simp at hcb
      rw [if_neg h1]
      rw [ih htail]

theorem rstripUnderscore_id (s : List Nat) (h : s.getLast? ≠ some 95) :
    rstripUnderscore s = s := by
  unfold rstripUnderscore
  cases hrev : s.reverse with
  | nil =>
    have hs : s = [] := List.reverse_eq_nil_iff.mp hrev
    rw [hs]
    rfl
  | cons a t =>
    have hlast : s.getLast? = some a := by
      rw [← List.head?_reverse, hrev]
      rfl
    have ha : ((fun c => c == (95 : Nat)) a) = false := by
      rw [beq_eq_false_iff_ne]
      intro hc
      rw [hc] at hlast
      exact h hlast
    rw [List.dropWhile_cons_of_neg (by
      intro hc
      have : (fun c => c == (95 : Nat)) a = true := hc
      rw [ha] at this
      cases this)]
    rw [← hrev, List.reverse_reverse]

/-- C9 counterexample: with the dimension named `d_` (trailing underscore)
and metric `m`/`sum`, the cube's first column is `d` (the trailing
underscore is stripped by `generate_column_names`), not the dimension name
`d_` itself, so the columns are not exactly the dimension names followed by
`<column>_<function>`. -/
theorem claim_C9_counterexample :
    create_olap_cube
        { columns := [[100, 95], [109]], rows := [[Value.int 1, Value.int 2]] }
        [[100, 95]] [([109], AggSpec.one [115, 117, 109])] =
      Except.ok
        { columns := [[100], [109, 95, 115, 117, 109]],
          rows := [[Value.int 1, Value.int 2]] } ∧
    [[100], [109, 95, 115, 117, 109]] ≠
      [[100, 95]] ++ [[109] ++ [95] ++ [115, 117, 109]] := by decide

/-- C9 (amended): for every non-empty input frame having every dimension and
metric column, `create_olap_cube` returns a cube whose columns are the
dimension names in order followed by `<column>_<function>` for each pair of
the metrics mapping in order, except that every produced name additionally
has double underscores collapsed to one and trailing underscores stripped;
for names without double or trailing underscores that cleanup changes
nothing. -/
theorem claim_C9_cube_columns (df : CubeFrame) (dimensions : List (List Nat))
    (metrics : List (List Nat × AggSpec))
    (hrows : df.rows.isEmpty = false) (hcols : df.columns.isEmpty = false)
    (hpresent : (dimensions ++ metrics.map Prod.fst).all
      (fun c => df.columns.contains c) = true) :
    (∃ cube, create_olap_cube df dimensions metrics = Except.ok cube ∧
      cube.columns = generate_column_names dimensions metrics) ∧
    generate_column_names dimensions metrics =
      (dimensions ++ metrics.flatMap (fun p =>
        match p.2 with
        | AggSpec.one f => [p.1 ++ [95] ++ f]
        | AggSpec.many fs => fs.map (fun f => p.1 ++ [95] ++ f))).map
        cleanColumnName ∧
    (∀ name : List Nat, hasDoubleUnderscore name = false →
      name.getLast? ≠ some 95 → cleanColumnName name = name) := by
  have hmain : create_olap_cube df dimensions metrics =
      Except.ok
        { columns := generate_column_names dimensions metrics,
          rows := (groupKeys df dimensions).map (fun key =>
            key ++ metrics.flatMap (fun p =>
              let vs := (df.rows.filter
                (fun r => dimKey df dimensions r == key)).map (cubeCell df p.1)
              match p.2 with
              | .one f => [applyAgg f vs]
              | .many fs => fs.map (fun f => applyAgg f vs))) } := by
    unfold create_olap_cube
    have hc1 : (df.rows.isEmpty || df.columns.isEmpty) = false := by
      rw [hrows, hcols]
      rfl
    rw [hc1, hpresent]
    rfl
  refine ⟨⟨_, hmain, rfl⟩, rfl, ?_⟩
  intro name h1 h2
  unfold cleanColumnName
  rw [replaceDU_id name h1, rstripUnderscore_id _ h2]

/-- Witness for C9 (amended) at a concrete frame with dimension `r` and
metric `m`/`sum`. -/
theorem claim_C9_witness :
    ((⟨[[114], [109]], [[Value.int 1, Value.int 2]]⟩ :
        CubeFrame).rows.isEmpty = false) ∧
    ((⟨[[114], [109]], [[Value.int 1, Value.int 2]]⟩ :
        CubeFrame).columns.isEmpty = false) ∧
    (([[114]] ++ [([109], AggSpec.one [115, 117, 109])].map Prod.fst).all
      (fun c => (⟨[[114], [109]], [[Value.int 1, Value.int 2]]⟩ :
        CubeFrame).columns.contains c) = true) ∧
    ((∃ cube, create_olap_cube
          (⟨[[114], [109]], [[Value.int 1, Value.int 2]]⟩ : CubeFrame)
          [[114]] [([109], AggSpec.one [115, 117, 109])] =
        Except.ok cube ∧
      cube.columns =
        generate_column_names [[114]]
          [([109], AggSpec.one [115, 117, 109])]) ∧
    generate_column_names [[114]] [([109], AggSpec.one [115, 117, 109])] =
      ([[114]] ++ [([109], AggSpec.one [115, 117, 109])].flatMap (fun p =>
        match p.2 with
        | AggSpec.one f => [p.1 ++ [95] ++ f]
        | AggSpec.many fs => fs.map (fun f => p.1 ++ [95] ++ f))).map
        cleanColumnName ∧
    (∀ name : List Nat, hasDoubleUnderscore name = false →
      name.getLast? ≠ some 95 → cleanColumnName name = name)) :=
  ⟨by decide, by decide, by decide,
    claim_C9_cube_columns
      (⟨[[114], [109]], [[Value.int 1, Value.int 2]]⟩ : CubeFrame)
      [[114]] [([109], AggSpec.one [115, 117, 109])]
      (by decide) (by decide) (by decide)⟩

/-- C10: `read_data` never propagates an exception: on a missing file or any
other read failure it returns an empty DataFrame, and `main` then skips
cleaning and saving for that entity while continuing with the remaining
files. -/
theorem claim_C10_read_data_never_raises
    (fs : String → ReadOutcome) (e : String × String × (Table → Table))
    (rest : List (String × String × (Table → Table))) :
    read_data ReadOutcome.fileNotFound = { colNames := [], rows := [] } ∧
    read_data ReadOutcome.otherError = { colNames := [], rows := [] } ∧
    data_prep_main fs (e :: rest) =
      processEntry fs e ++ data_prep_main fs rest ∧
    ((fs e.1 = ReadOutcome.fileNotFound ∨ fs e.1 = ReadOutcome.otherError) →
      data_prep_main fs (e :: rest) = data_prep_main fs rest) := by
  refine ⟨rfl, rfl, ?_, ?_⟩
  · unfold data_prep_main
    rw [List.flatMap_cons]
  · intro hfail
    have hskip : processEntry fs e = [] := by
      unfold processEntry
      rcases hfail with hf | hf <;>
        · rw [hf]
          rfl
    unfold data_prep_main
    rw [List.flatMap_cons]
    show processEntry fs e ++ _ = _
    rw [hskip]
    rfl

/-- Witness for C10: a filesystem on which every read raises
`FileNotFoundError`; the lone entry is skipped and the loop continues. -/
theorem claim_C10_witness :
    read_data ReadOutcome.fileNotFound = { colNames := [], rows := [] } ∧
    read_data ReadOutcome.otherError = { colNames := [], rows := [] } ∧
    data_prep_main (fun _ => ReadOutcome.fileNotFound)
        [("customers_data.csv", "customers_prepared.csv", id)] =
      processEntry (fun _ => ReadOutcome.fileNotFound)
        ("customers_data.csv", "customers_prepared.csv", id) ++
        data_prep_main (fun _ => ReadOutcome.fileNotFound) [] ∧
    (((fun _ => ReadOutcome.fileNotFound) "customers_data.csv" =
          ReadOutcome.fileNotFound ∨
      (fun _ => ReadOutcome.fileNotFound) "customers_data.csv" =
          ReadOutcome.otherError) →
      data_prep_main (fun _ => ReadOutcome.fileNotFound)
          [("customers_data.csv", "customers_prepared.csv", id)] =
        data_prep_main (fun _ => ReadOutcome.fileNotFound) []) :=
  claim_C10_read_data_never_raises (fun _ => ReadOutcome.fileNotFound)
    ("customers_data.csv", "customers_prepared.csv", id) []

end SmartStore

